import Mathlib

/-!
Verification of the Tango puzzle core (GridSystem, RuleValidator, GameManager)
against its natural-language specification.

The JavaScript sources are shallowly embedded as executable Lean functions:
* `GridSystem` (src/unnamed/part_000, first class): grid of cells plus an
  insertion-ordered, key-unique constraint map.
* `RuleValidator` (src/unnamed/part_000, second class): pure functions over a
  `GridSystem`.
* `GameManager` (src/src/js/GameManager.js): session state; `Date.now()` is
  modelled by an explicit `now : Int` argument; the mutable `this.seedValue`
  of the seeded generator is threaded explicitly through the generation code.

JavaScript numeric notes (all exact, so the `Nat`/`Int` model is faithful):
* `state / 2^32`, `floor(r * n)` for `n ≤ 2^20` and `r > 0.5` are exact in
  IEEE doubles because every intermediate fits in 53 bits; they are modelled
  as `s * n / 2^32` (Nat division) and `2^31 < s`.
* `(state * 1664525 + 1013904223) % 2^32` stays below `2^53`, hence exact.
* the 32-bit signed string hash uses `ToInt32`, modelled by `toInt32`.
* grid positions are modelled as `Nat`; a negative JS index fails the
  `isValidPosition` bounds check exactly as an index `≥ size` does.
-/

namespace Tango

/-- Cell value: JS `null | 'orange' | 'moon'` is `Option Val`. -/
inductive Val where
  | orange
  | moon
deriving DecidableEq, Repr

/-- One grid cell. (The JS cell also carries an always-empty `constraints: {}`
object that no code ever reads or writes; it is omitted.) -/
structure Cell where
  value : Option Val
  immutable : Bool
deriving DecidableEq, Repr

def defaultCell : Cell := ⟨none, false⟩

structure Pos where
  row : Nat
  col : Nat
deriving DecidableEq, Repr

/-- Constraint kind: JS `'equal' | 'notequal'`. -/
inductive CKind where
  | equal
  | notequal
deriving DecidableEq, Repr

structure Constraint where
  cell1 : Pos
  cell2 : Pos
  type : CKind
deriving DecidableEq, Repr

/-- Constraint key: the JS canonical id string `"r1,c1-r2,c2"`.  Decimal
rendering of the four numbers with `,`/`-` separators is injective, so the
4-tuple is an equivalent key. -/
abbrev CKey := Nat × Nat × Nat × Nat

/-- `GridSystem`: `size`, the cell matrix, and the constraint `Map` modelled
as an insertion-ordered association list with unique keys. -/
@[ext]
structure GridSystem where
  size : Nat
  grid : List (List Cell)
  constraints : List (CKey × Constraint)
deriving DecidableEq, Repr

def initializeGrid (size : Nat) : List (List Cell) :=
  List.replicate size (List.replicate size defaultCell)

/-- `new GridSystem(size)`. -/
def GridSystem.new (size : Nat) : GridSystem :=
  ⟨size, initializeGrid size, []⟩

def GridSystem.isValidPosition (gs : GridSystem) (r c : Nat) : Bool :=
  decide (r < gs.size) && decide (c < gs.size)

/-- Read `this.grid[r][c]` (total; out-of-range reads give `defaultCell`,
which the JS code never performs on a well-formed grid). -/
def GridSystem.cellAt (gs : GridSystem) (r c : Nat) : Cell :=
  (gs.grid.getD r []).getD c defaultCell

def cellVal (gs : GridSystem) (r c : Nat) : Option Val :=
  (gs.cellAt r c).value

/-- `setCell(row, col, value)`: mutates and returns `true` only when in
bounds and the target is not immutable. -/
def GridSystem.setCell (gs : GridSystem) (r c : Nat) (v : Option Val) :
    GridSystem × Bool :=
  if gs.isValidPosition r c && !(gs.cellAt r c).immutable then
    ({ gs with
        grid := gs.grid.set r
          ((gs.grid.getD r []).set c { gs.cellAt r c with value := v }) },
      true)
  else
    (gs, false)

/-- `setImmutable(row, col, value)`: bounds-checked; overwrites the value and
marks the cell immutable. -/
def GridSystem.setImmutable (gs : GridSystem) (r c : Nat) (v : Option Val) :
    GridSystem × Bool :=
  if gs.isValidPosition r c then
    ({ gs with
        grid := gs.grid.set r
          ((gs.grid.getD r []).set c { value := v, immutable := true }) },
      true)
  else
    (gs, false)

/-- JS `Map.set`: overwrite in place when the key exists (keeping its
position), else append. -/
def mapSet (m : List (CKey × Constraint)) (k : CKey) (v : Constraint) :
    List (CKey × Constraint) :=
  if m.any (fun p => p.1 == k) then
    m.map (fun p => if p.1 == k then (k, v) else p)
  else
    m ++ [(k, v)]

/-- `addConstraint(row1, col1, row2, col2, type)`. -/
def GridSystem.addConstraint (gs : GridSystem) (r1 c1 r2 c2 : Nat)
    (t : CKind) : GridSystem × Bool :=
  if gs.isValidPosition r1 c1 && gs.isValidPosition r2 c2 then
    ({ gs with
        constraints := mapSet gs.constraints (r1, c1, r2, c2)
          ⟨⟨r1, c1⟩, ⟨r2, c2⟩, t⟩ },
      true)
  else
    (gs, false)

/-- `getConstraints()`: the `Map`'s values in insertion order. -/
def GridSystem.getConstraints (gs : GridSystem) : List Constraint :=
  gs.constraints.map (·.2)

/-- `getCell(row, col)`: bounds-checked read, `null` when out of bounds. -/
def GridSystem.getCell (gs : GridSystem) (r c : Nat) : Option Cell :=
  if gs.isValidPosition r c then some (gs.cellAt r c) else none

/-! ## RuleValidator

Pure functions over a `GridSystem` (the JS class only stores the reference to
the grid system; it has no state of its own). -/

/-- An adjacency violation record.  The JS object has different fields for the
two directions (`row/startCol/endCol` vs `col/startRow/endRow`). -/
inductive AdjErr where
  | horizontal (row startCol endCol : Nat) (value : Option Val)
  | vertical (col startRow endRow : Nat) (value : Option Val)
deriving DecidableEq, Repr

inductive Dir where
  | row
  | column
deriving DecidableEq, Repr

/-- A balance violation record (`totalFilled` is computed by the JS loop but
never stored or read afterwards, so it is omitted). -/
structure BalanceErr where
  direction : Dir
  index : Nat
  orangeCount : Nat
  moonCount : Nat
  exceeded : Bool
deriving DecidableEq, Repr

/-- A pairwise-constraint violation record. -/
structure ConstrErr where
  constraintType : CKind
  cell1 : Pos
  cell2 : Pos
  value1 : Option Val
  value2 : Option Val
deriving DecidableEq, Repr

/-- One iteration of the adjacency scan loop body at index `c`, acting on the
state `(consecutiveCount, currentValue, errors)`: when `v c` extends the
current non-empty run the count grows and a record citing `[c-2, c]` is
pushed as soon as the count exceeds 2; otherwise the run restarts at `c`. -/
def scanStep (v : Nat → Option Val) (mk : Nat → Option Val → AdjErr)
    (c : Nat) (s : Nat × Option Val × List AdjErr) :
    Nat × Option Val × List AdjErr :=
  if v c = s.2.1 ∧ s.2.1 ≠ none then
    (s.1 + 1, s.2.1, if s.1 + 1 > 2 then s.2.2 ++ [mk c s.2.1] else s.2.2)
  else
    (1, v c, s.2.2)

/-- The adjacency scan along a line `v : Nat → Option Val` (`v` is the row
read left-to-right, resp. the column read top-to-bottom): the state after the
loop has processed indices `1..c`, starting from `(1, v 0, [])`. -/
def scanLine (v : Nat → Option Val) (mk : Nat → Option Val → AdjErr) :
    Nat → Nat × Option Val × List AdjErr
  | 0 => (1, v 0, [])
  | c + 1 => scanStep v mk (c + 1) (scanLine v mk c)

/-- Errors the scan reports for one full line of length `size`. -/
def lineErrors (v : Nat → Option Val) (mk : Nat → Option Val → AdjErr)
    (size : Nat) : List AdjErr :=
  match size with
  | 0 => []
  | n + 1 => (scanLine v mk n).2.2

/-- `validateAdjacentLimits()`: horizontal scans of every row, then vertical
scans of every column. -/
def validateAdjacentLimits (gs : GridSystem) : List AdjErr :=
  ((List.range gs.size).flatMap fun r =>
    lineErrors (fun c => cellVal gs r c)
      (fun c cur => .horizontal r (c - 2) c cur) gs.size)
  ++ ((List.range gs.size).flatMap fun c =>
    lineErrors (fun r => cellVal gs r c)
      (fun r cur => .vertical c (r - 2) r cur) gs.size)

def rowOrangeCount (gs : GridSystem) (r : Nat) : Nat :=
  (List.range gs.size).countP fun c => cellVal gs r c == some .orange

def rowMoonCount (gs : GridSystem) (r : Nat) : Nat :=
  (List.range gs.size).countP fun c => cellVal gs r c == some .moon

def colOrangeCount (gs : GridSystem) (c : Nat) : Nat :=
  (List.range gs.size).countP fun r => cellVal gs r c == some .orange

def colMoonCount (gs : GridSystem) (c : Nat) : Nat :=
  (List.range gs.size).countP fun r => cellVal gs r c == some .moon

/-- `Math.ceil(size / 2)`. -/
def maxAllowed (size : Nat) : Nat := (size + 1) / 2

/-- `validateBalance()`: one record per row, then per column, whenever either
symbol count exceeds `maxAllowed` (a single `if orange > max || moon > max`
push in the source). -/
def validateBalance (gs : GridSystem) : List BalanceErr :=
  ((List.range gs.size).flatMap fun r =>
    if rowOrangeCount gs r > maxAllowed gs.size ∨
        rowMoonCount gs r > maxAllowed gs.size then
      [⟨.row, r, rowOrangeCount gs r, rowMoonCount gs r, true⟩]
    else [])
  ++ ((List.range gs.size).flatMap fun c =>
    if colOrangeCount gs c > maxAllowed gs.size ∨
        colMoonCount gs c > maxAllowed gs.size then
      [⟨.column, c, colOrangeCount gs c, colMoonCount gs c, true⟩]
    else [])

/-- `validateConstraints()`: skip any constraint with an empty endpoint;
otherwise report `equal` pairs that differ and `notequal` pairs that agree. -/
def validateConstraints (gs : GridSystem) : List ConstrErr :=
  gs.getConstraints.flatMap fun con =>
    let v1 := cellVal gs con.cell1.row con.cell1.col
    let v2 := cellVal gs con.cell2.row con.cell2.col
    if v1 ≠ none ∧ v2 ≠ none then
      if con.type = .equal ∧ ¬(v1 = v2) then
        [⟨.equal, con.cell1, con.cell2, v1, v2⟩]
      else if con.type = .notequal ∧ v1 = v2 then
        [⟨.notequal, con.cell1, con.cell2, v1, v2⟩]
      else []
    else []

structure ValidationResult where
  adjacentErrors : List AdjErr
  balanceErrors : List BalanceErr
  constraintErrors : List ConstrErr
deriving DecidableEq, Repr

def validateAll (gs : GridSystem) : ValidationResult :=
  ⟨validateAdjacentLimits gs, validateBalance gs, validateConstraints gs⟩

def isValid (gs : GridSystem) : Bool :=
  (validateAll gs).adjacentErrors.length == 0 &&
  (validateAll gs).balanceErrors.length == 0 &&
  (validateAll gs).constraintErrors.length == 0

inductive ErrType where
  | adjacent
  | balance
  | constr
deriving DecidableEq, Repr

structure ErrorCell where
  row : Nat
  col : Nat
  type : ErrType
deriving DecidableEq, Repr

/-- `getErrorCells()`: expand each violation into implicated positions. -/
def getErrorCells (gs : GridSystem) : List ErrorCell :=
  ((validateAll gs).adjacentErrors.flatMap fun e =>
    match e with
    | .horizontal r s e' _ =>
      (List.range' s (e' + 1 - s)).map fun c => ⟨r, c, .adjacent⟩
    | .vertical c s e' _ =>
      (List.range' s (e' + 1 - s)).map fun r => ⟨r, c, .adjacent⟩)
  ++ ((validateAll gs).balanceErrors.flatMap fun e =>
    match e.direction with
    | .row => (List.range gs.size).map fun c => ⟨e.index, c, .balance⟩
    | .column => (List.range gs.size).map fun r => ⟨r, e.index, .balance⟩)
  ++ ((validateAll gs).constraintErrors.flatMap fun e =>
    [⟨e.cell1.row, e.cell1.col, .constr⟩, ⟨e.cell2.row, e.cell2.col, .constr⟩])

/-! ## GameManager: session state, timer, moves, undo/redo -/

inductive GState where
  | ready
  | playing
  | paused
  | completed
deriving DecidableEq, Repr

structure Timer where
  startTime : Option Int
  elapsedTime : Int
  isRunning : Bool
deriving DecidableEq, Repr

structure MoveRecord where
  row : Nat
  col : Nat
  previousValue : Option Val
  newValue : Option Val
  timestamp : Int
deriving DecidableEq, Repr

def defaultMove : MoveRecord := ⟨0, 0, none, none, 0⟩

/-- The `GameManager` fields the claims exercise.  `seedValue` is the mutable
`this.seedValue` used by the seeded generator; `initialPuzzleState` (used only
by `resetGame`, outside every claim) is omitted. -/
@[ext]
structure GameManager where
  gridSystem : GridSystem
  gameState : GState
  difficulty : String
  seed : String
  timer : Timer
  moveHistory : List MoveRecord
  currentMoveIndex : Int
  seedValue : Nat
deriving DecidableEq, Repr

/-- `startTimer()`, with `Date.now()` passed in as `now`. -/
def startTimer (t : Timer) (now : Int) : Timer :=
  if t.isRunning then t
  else ⟨some (now - t.elapsedTime), t.elapsedTime, true⟩

/-- `pauseTimer()`.  (When `isRunning` holds, `startTime` was set by
`startTimer`, so the `getD 0` default is never taken in reachable states.) -/
def pauseTimer (t : Timer) (now : Int) : Timer :=
  if t.isRunning then ⟨t.startTime, now - t.startTime.getD 0, false⟩
  else t

def resetTimerT : Timer := ⟨none, 0, false⟩

/-- `startGame()`. -/
def GameManager.startGame (gm : GameManager) (now : Int) :
    GameManager × Bool :=
  if gm.gameState = .ready ∨ gm.gameState = .paused then
    ({ gm with gameState := .playing, timer := startTimer gm.timer now }, true)
  else (gm, false)

/-- `pauseGame()`. -/
def GameManager.pauseGame (gm : GameManager) (now : Int) :
    GameManager × Bool :=
  if gm.gameState = .playing then
    ({ gm with gameState := .paused, timer := pauseTimer gm.timer now }, true)
  else (gm, false)

/-- `recordMove(row, col, previousValue, newValue)`: truncate the history to
the cursor (JS `slice(0, currentMoveIndex + 1)`), append, advance. -/
def GameManager.recordMove (gm : GameManager) (r c : Nat)
    (prev newv : Option Val) (now : Int) : GameManager :=
  { gm with
      moveHistory := gm.moveHistory.take (gm.currentMoveIndex + 1).toNat
        ++ [⟨r, c, prev, newv, now⟩]
      currentMoveIndex := gm.currentMoveIndex + 1 }

/-- `isGameCompleted()`: `false` as soon as any cell is `null`, otherwise the
validator's verdict. -/
def GameManager.isGameCompleted (gm : GameManager) : Bool :=
  ((List.range gm.gridSystem.size).all fun r =>
    (List.range gm.gridSystem.size).all fun c =>
      !(cellVal gm.gridSystem r c).isNone)
  && isValid gm.gridSystem

/-- `completeGame()` (its returned summary object is not modelled; only the
state transition and timer pause are). -/
def GameManager.completeGame (gm : GameManager) (now : Int) : GameManager :=
  { gm with gameState := .completed, timer := pauseTimer gm.timer now }

structure MoveResult where
  success : Bool
  reason : Option String
  gameState : Option GState
  isValidFlag : Option Bool
  errors : Option (List ErrorCell)
  validation : Option ValidationResult
deriving DecidableEq, Repr

/-- `makeMove(row, col, value)`.  The failure branch records nothing; the
success branch records the move, re-checks completion, and reports the new
validation snapshot.  (`previousValue` is `getCell(row,col)?.value`; when
`setCell` succeeded the position was valid, so the `getD none` default is
never taken on the success path.) -/
def GameManager.makeMove (gm : GameManager) (r c : Nat) (v : Option Val)
    (now : Int) : GameManager × MoveResult :=
  if gm.gameState ≠ .playing ∧ gm.gameState ≠ .ready then
    (gm, ⟨false, some "Game not active", none, none, none, none⟩)
  else
    let gm1 := if gm.gameState = .ready then (gm.startGame now).1 else gm
    let previousValue := (gm1.gridSystem.getCell r c).map (·.value)
    let res := gm1.gridSystem.setCell r c v
    if res.2 then
      let gm2 := { gm1 with gridSystem := res.1 }
      let gm3 := gm2.recordMove r c (previousValue.getD none) v now
      let gm4 := if gm3.isGameCompleted then gm3.completeGame now else gm3
      (gm4, ⟨true, none, some gm4.gameState, some (isValid gm4.gridSystem),
        some (getErrorCells gm4.gridSystem), some (validateAll gm4.gridSystem)⟩)
    else
      (gm1, ⟨false, some "Invalid move", none, none, none, none⟩)

structure StepResult where
  success : Bool
  move : Option MoveRecord
  canUndo : Bool
  canRedo : Bool
  reason : Option String
deriving DecidableEq, Repr

/-- `undo()`: restore `previousValue` at the cursor's move and step the cursor
back; fail (without stepping) when at the start or when `setCell` refuses. -/
def GameManager.undo (gm : GameManager) : GameManager × StepResult :=
  if 0 ≤ gm.currentMoveIndex then
    let move := gm.moveHistory.getD gm.currentMoveIndex.toNat defaultMove
    let res := gm.gridSystem.setCell move.row move.col move.previousValue
    if res.2 then
      let gm' := { gm with
        gridSystem := res.1
        currentMoveIndex := gm.currentMoveIndex - 1 }
      (gm', ⟨true, some move, decide (0 ≤ gm'.currentMoveIndex),
        decide (gm'.currentMoveIndex < (gm'.moveHistory.length : Int) - 1),
        none⟩)
    else
      ({ gm with gridSystem := res.1 },
        ⟨false, none, false, false, some "No moves to undo"⟩)
  else
    (gm, ⟨false, none, false, false, some "No moves to undo"⟩)

/-- `redo()`: advance the cursor and re-apply `newValue`.  Note the source
increments `this.currentMoveIndex` before calling `setCell`, so a refused
`setCell` still leaves the cursor advanced. -/
def GameManager.redo (gm : GameManager) : GameManager × StepResult :=
  if gm.currentMoveIndex < (gm.moveHistory.length : Int) - 1 then
    let idx := gm.currentMoveIndex + 1
    let move := gm.moveHistory.getD idx.toNat defaultMove
    let res := gm.gridSystem.setCell move.row move.col move.newValue
    let gm' := { gm with
      gridSystem := res.1
      currentMoveIndex := idx }
    if res.2 then
      (gm', ⟨true, some move, decide (0 ≤ idx),
        decide (idx < (gm'.moveHistory.length : Int) - 1), none⟩)
    else
      (gm', ⟨false, none, false, false, some "No moves to redo"⟩)
  else
    (gm, ⟨false, none, false, false, some "No moves to redo"⟩)

/-! ## Seeded generation (`seedRandom` / `initializePuzzle`) -/

/-- JS `ToInt32` (the effect of `hash & hash` / `<<` on a number). -/
def toInt32 (n : Int) : Int :=
  let m := n % 4294967296
  if m < 2147483648 then m else m - 4294967296

/-- One character step of the seed hash:
`hash = (hash << 5) - hash + charCode; hash = hash & hash`. -/
def hashStep (h : Int) (c : Nat) : Int :=
  toInt32 (toInt32 (h * 32) - h + c)

/-- The 32-bit signed hash over the seed's UTF-16 code units, accumulated
left-to-right from 0.  (Seeds are in practice `A–Z0-9`, where Lean's
`Char.toNat` coincides with JS `charCodeAt`.) -/
def hashString (s : String) : Int :=
  s.data.foldl (fun h ch => hashStep h ch.toNat) 0

/-- The LCG recurrence `state = (state * 1664525 + 1013904223) % 2^32`.
Each call to the generator closure performs one such step and returns
`state / 2^32 ∈ [0,1)`. -/
def lcgNext (s : Nat) : Nat :=
  (s * 1664525 + 1013904223) % 4294967296

/-- `Math.floor(random() * n)` where the post-update state is `s`:
`s / 2^32 * n` is exact in doubles for the `n` the generator uses. -/
def randFloor (s n : Nat) : Nat := s * n / 4294967296

/-- `random() > 0.5` where the post-update state is `s`. -/
def randGtHalf (s : Nat) : Bool := decide (2147483648 < s)

/-- `seedRandom(seed)` up to the point where the closure is created: the new
`this.seedValue` plus whether a generator closure was actually returned.  For
the empty seed the function returns the number `0` instead of a closure (and
leaves `this.seedValue` at its prior value), so the subsequent `random()`
call in `initializePuzzle` throws a `TypeError`. -/
def seedRandomValue (prior : Nat) (seed : String) : Nat × Bool :=
  if seed.length = 0 then (prior, false)
  else ((hashString seed).natAbs, true)

/-- The simultaneous swap `[positions[i], positions[j]] = [positions[j],
positions[i]]`. -/
def swapAt (l : List Pos) (i j : Nat) : List Pos :=
  let a := l.getD i ⟨0, 0⟩
  let b := l.getD j ⟨0, 0⟩
  (l.set i b).set j a

/-- Fisher–Yates backward pass: the argument counts the remaining loop
iterations, so `shuffleAux i` runs the body for code indices `i, i-1, …, 1`. -/
def shuffleAux : Nat → List Pos → Nat → List Pos × Nat
  | 0, l, s => (l, s)
  | i + 1, l, s =>
    let s' := lcgNext s
    let j := randFloor s' (i + 2)
    shuffleAux i (swapAt l (i + 1) j) s'

def shuffle (l : List Pos) (s : Nat) : List Pos × Nat :=
  shuffleAux (l.length - 1) l s

/-- The prefill loop: one draw per position chooses `'orange'` (`> 0.5`) or
`'moon'`, then the cell is set immutable. -/
def placeImmutables (gs : GridSystem) (ps : List Pos) (s : Nat) :
    GridSystem × Nat :=
  ps.foldl
    (fun acc p =>
      let s' := lcgNext acc.2
      let v : Val := if randGtHalf s' then .orange else .moon
      ((acc.1.setImmutable p.row p.col (some v)).1, s'))
    (gs, s)

/-- `prefilledCount` from the difficulty ternary: `easy → 0.40·size²`,
`medium → 0.25·size²`, anything else (including `hard`) `→ 0.15·size²`,
floored.  Exact rational arithmetic; `0.25` is dyadic so the medium case
matches the JS doubles bit-for-bit (the claims only exercise `medium`). -/
def prefilledCount (size : Nat) (difficulty : String) : Nat :=
  let n := size * size
  if difficulty = "easy" then n * 2 / 5
  else if difficulty = "medium" then n / 4
  else n * 3 / 20

/-- `constraintCount = Math.floor(size * 0.7)` (exact at every size the
claims exercise). -/
def constraintCount (size : Nat) : Nat := size * 7 / 10

/-- The constraint loop: per iteration draw row, column in `[0, size-2]`,
kind, and orientation; a vertical draw with `row = size-1` adds nothing. -/
def addConstraints (gs : GridSystem) (s : Nat) : Nat → GridSystem × Nat
  | 0 => (gs, s)
  | n + 1 =>
    let s1 := lcgNext s
    let row := randFloor s1 gs.size
    let s2 := lcgNext s1
    let col := randFloor s2 (gs.size - 1)
    let s3 := lcgNext s2
    let t : CKind := if randGtHalf s3 then .equal else .notequal
    let s4 := lcgNext s3
    let gs' :=
      if randGtHalf s4 then (gs.addConstraint row col row (col + 1) t).1
      else if row < gs.size - 1 then (gs.addConstraint row col (row + 1) col t).1
      else gs
    addConstraints gs' s4 n

/-- `initializePuzzle()` acting on a grid system, with the prior
`this.seedValue` threaded in.  `none` models the `TypeError` thrown when the
seed is empty (`seedRandom` then returns `0`, which is not callable).  The
result carries the final `this.seedValue`. -/
def initializePuzzle (gs : GridSystem) (difficulty seed : String)
    (prior : Nat) : Option (GridSystem × Nat) :=
  let sr := seedRandomValue prior seed
  if sr.2 then
    let pc := prefilledCount gs.size difficulty
    let positions := (List.range gs.size).flatMap fun r =>
      (List.range gs.size).map fun c => (⟨r, c⟩ : Pos)
    let sh := shuffle positions sr.1
    let pi := placeImmutables gs (sh.1.take (min pc sh.1.length)) sh.2
    let ac := addConstraints pi.1 pi.2 (constraintCount gs.size)
    some ac
  else none

/-- Puzzle generation as performed by the constructor / `newGame`: a fresh
`GridSystem` of the given size, then `initializePuzzle`. -/
def generate (size : Nat) (difficulty seed : String) (prior : Nat) :
    Option (GridSystem × Nat) :=
  initializePuzzle (GridSystem.new size) difficulty seed prior

/-- Number of immutable cells of a grid system. -/
def countImmutable (gs : GridSystem) : Nat :=
  (gs.grid.map fun row => row.countP fun cell => cell.immutable).sum

/-- A list of `setCell` calls applied in order (each call's grid result feeds
the next; the returned booleans are discarded). -/
def applySetCells (gs : GridSystem) (calls : List (Nat × Nat × Option Val)) :
    GridSystem :=
  calls.foldl (fun g t => (g.setCell t.1 t.2.1 t.2.2).1) gs

/-- Length of the run of equal non-empty values ending at index `c` of a line
(the value the scan's `consecutiveCount` tracks). -/
def runLen (v : Nat → Option Val) : Nat → Nat
  | 0 => 1
  | c + 1 => if v (c + 1) = v c ∧ v c ≠ none then runLen v c + 1 else 1

/-! ### Concrete fixtures used by the witnesses -/

/-- A 2×2 grid whose cell (1,1) is immutable. -/
def wGS : GridSystem :=
  ((GridSystem.new 2).setImmutable 1 1 (some .moon)).1

/-- A 2×2 grid whose top row is two oranges (row 0 exceeds the balance cap). -/
def wGSbal : GridSystem :=
  (((GridSystem.new 2).setCell 0 0 (some .orange)).1.setCell 0 1
    (some .orange)).1

/-- A playing 1×1 session over an empty mutable grid with empty history. -/
def wGM : GameManager :=
  ⟨GridSystem.new 1, .playing, "medium", "S", ⟨some 0, 0, true⟩, [], -1, 7⟩

/-- A ready 2×2 session whose cell (0,0) is immutable. -/
def wGMready : GameManager :=
  ⟨((GridSystem.new 2).setImmutable 0 0 (some .orange)).1, .ready, "medium",
    "S", ⟨none, 0, false⟩, [], -1, 7⟩

/-- A paused 1×1 session with one recorded move at the cursor. -/
def wGMpaused : GameManager :=
  ⟨((GridSystem.new 1).setCell 0 0 (some .orange)).1, .paused, "medium", "S",
    ⟨some 0, 5, false⟩, [⟨0, 0, none, some .orange, 3⟩], 0, 7⟩

/-- A line holding a single run of five oranges. -/
def wLine : Nat → Option Val := fun j => if j < 5 then some .orange else none

/-! ## Helper lemmas -/

theorem getD_set {α : Type} (l : List α) (i j : Nat) (a d : α) :
    (l.set i a).getD j d = if i = j ∧ j < l.length then a else l.getD j d := by
  simp only [List.getD_eq_getElem?_getD, List.getElem?_set]
  by_cases h : i = j
  · subst h
    by_cases h2 : i < l.length
    · simp [h2]
    · simp [h2, List.getElem?_eq_none (Nat.le_of_not_lt h2)]
  · simp only [if_neg h]
    rw [if_neg]
    intro hc
    exact h hc.1

theorem set_getD_self {α : Type} (l : List α) (i : Nat) (d : α)
    (h : i < l.length) : l.set i (l.getD i d) = l := by
  apply List.ext_getElem?
  intro j
  rw [List.getElem?_set]
  by_cases hij : i = j
  · subst hij
    simp [h, List.getD_eq_getElem?_getD, List.getElem?_eq_getElem h]
  · simp [hij]

theorem GridSystem.setCell_size (gs : GridSystem) (r c : Nat)
    (v : Option Val) : (gs.setCell r c v).1.size = gs.size := by
  unfold GridSystem.setCell
  split <;> rfl

theorem GridSystem.setCell_constraints (gs : GridSystem) (r c : Nat)
    (v : Option Val) : (gs.setCell r c v).1.constraints = gs.constraints := by
  unfold GridSystem.setCell
  split <;> rfl

theorem GridSystem.setCell_snd_iff (gs : GridSystem) (r c : Nat)
    (v : Option Val) :
    (gs.setCell r c v).2 = true ↔
      r < gs.size ∧ c < gs.size ∧ (gs.cellAt r c).immutable = false := by
  unfold GridSystem.setCell GridSystem.isValidPosition
  split <;> rename_i h <;> simp_all

theorem GridSystem.setCell_fail (gs : GridSystem) (r c : Nat) (v : Option Val)
    (h : (gs.setCell r c v).2 = false) : (gs.setCell r c v).1 = gs := by
  by_cases hcond : (gs.isValidPosition r c && !(gs.cellAt r c).immutable) = true
  · rw [GridSystem.setCell, if_pos hcond] at h
    simp at h
  · rw [GridSystem.setCell, if_neg hcond]

/-- After a successful `setCell`, reading any position other than the target
is unchanged. -/
theorem GridSystem.cellAt_setCell_ne (gs : GridSystem) (r c : Nat)
    (v : Option Val) (r' c' : Nat) (h : ¬(r' = r ∧ c' = c)) :
    (gs.setCell r c v).1.cellAt r' c' = gs.cellAt r' c' := by
  unfold GridSystem.setCell
  split
  · show GridSystem.cellAt ⟨gs.size, _, gs.constraints⟩ r' c' = _
    unfold GridSystem.cellAt
    simp only
    rw [getD_set]
    by_cases hr : r = r' ∧ r' < gs.grid.length
    · rw [if_pos hr, getD_set, if_neg]
      · rw [hr.1]
      · intro hc
        exact h ⟨hr.1.symm, hc.1.symm⟩
    · rw [if_neg hr]
  · rfl

/-- After a successful `setCell` on a well-formed grid, the target cell holds
the new value with its immutability flag unchanged. -/
theorem GridSystem.cellAt_setCell_self (gs : GridSystem) (r c : Nat)
    (v : Option Val)
    (hg : gs.grid.length = gs.size)
    (hrow : ∀ l ∈ gs.grid, l.length = gs.size)
    (hok : (gs.setCell r c v).2 = true) :
    (gs.setCell r c v).1.cellAt r c = { gs.cellAt r c with value := v } := by
  have hb := (gs.setCell_snd_iff r c v).1 hok
  unfold GridSystem.setCell
  rw [if_pos]
  · show GridSystem.cellAt ⟨gs.size, _, gs.constraints⟩ r c = _
    unfold GridSystem.cellAt
    simp only
    have hrl : r < gs.grid.length := by omega
    have hmem : gs.grid.getD r [] ∈ gs.grid := by
      rw [List.getD_eq_getElem?_getD, List.getElem?_eq_getElem hrl]
      exact List.getElem_mem hrl
    have hcl : c < (gs.grid.getD r []).length := by
      rw [hrow _ hmem]; omega
    rw [getD_set, if_pos ⟨rfl, hrl⟩, getD_set, if_pos ⟨rfl, hcl⟩]
  · have := (gs.setCell_snd_iff r c v)
    unfold GridSystem.setCell at hok
    by_cases hcond : (gs.isValidPosition r c && !(gs.cellAt r c).immutable) = true
    · exact hcond
    · rw [if_neg hcond] at hok
      simp at hok

theorem setCell_grid_of_success (gs : GridSystem) (r c : Nat) (v : Option Val)
    (hok : (gs.setCell r c v).2 = true) :
    (gs.setCell r c v).1.grid
      = gs.grid.set r
          ((gs.grid.getD r []).set c { gs.cellAt r c with value := v }) := by
  unfold GridSystem.setCell at hok ⊢
  by_cases hcond : (gs.isValidPosition r c && !(gs.cellAt r c).immutable) = true
  · rw [if_pos hcond]
  · rw [if_neg hcond] at hok
    cases hok

/-- A `setCell` call never changes a cell whose `immutable` flag is set. -/
theorem GridSystem.cellAt_setCell_immutable (gs : GridSystem) (r c : Nat)
    (hi : (gs.cellAt r c).immutable = true) (a b : Nat) (w : Option Val) :
    (gs.setCell a b w).1.cellAt r c = gs.cellAt r c := by
  by_cases htarget : r = a ∧ c = b
  · cases hok : (gs.setCell a b w).2 with
    | false => rw [gs.setCell_fail a b w hok]
    | true =>
      have h2 := ((gs.setCell_snd_iff a b w).1 hok).2.2
      rw [← htarget.1, ← htarget.2, hi] at h2
      cases h2
  · exact gs.cellAt_setCell_ne a b w r c htarget

theorem applySetCells_immutable (calls : List (Nat × Nat × Option Val)) :
    ∀ (gs : GridSystem) (r c : Nat), (gs.cellAt r c).immutable = true →
      (applySetCells gs calls).cellAt r c = gs.cellAt r c := by
  induction calls with
  | nil => intro gs r c _; rfl
  | cons t ts ih =>
    intro gs r c hi
    show (applySetCells (gs.setCell t.1 t.2.1 t.2.2).1 ts).cellAt r c = _
    have hstep := gs.cellAt_setCell_immutable r c hi t.1 t.2.1 t.2.2
    rw [ih _ r c (by rw [hstep]; exact hi), hstep]

/-! ## Claim theorems -/

/-- C4: `setCell` succeeds exactly when the position is within bounds and the
target cell is not immutable; on failure the grid system is unchanged; on
success only the target cell's value changes; and an immutable cell is
invariant under any sequence of `setCell` calls. -/
theorem C4_setCell_spec (gs : GridSystem) (r c : Nat) (v : Option Val)
    (hg : gs.grid.length = gs.size)
    (hrow : ∀ l ∈ gs.grid, l.length = gs.size) :
    ((gs.setCell r c v).2 = true ↔
      r < gs.size ∧ c < gs.size ∧ (gs.cellAt r c).immutable = false)
    ∧ ((gs.setCell r c v).2 = false → (gs.setCell r c v).1 = gs)
    ∧ ((gs.setCell r c v).2 = true →
        (gs.setCell r c v).1.cellAt r c = { gs.cellAt r c with value := v }
        ∧ (∀ r' c', ¬(r' = r ∧ c' = c) →
            (gs.setCell r c v).1.cellAt r' c' = gs.cellAt r' c')
        ∧ (gs.setCell r c v).1.size = gs.size
        ∧ (gs.setCell r c v).1.constraints = gs.constraints)
    ∧ ((gs.cellAt r c).immutable = true →
        ∀ calls : List (Nat × Nat × Option Val),
          (applySetCells gs calls).cellAt r c = gs.cellAt r c) := by
  refine ⟨gs.setCell_snd_iff r c v, gs.setCell_fail r c v, ?_, ?_⟩
  · intro hok
    exact ⟨gs.cellAt_setCell_self r c v hg hrow hok,
      fun r' c' h => gs.cellAt_setCell_ne r c v r' c' h,
      gs.setCell_size r c v, gs.setCell_constraints r c v⟩
  · intro hi calls
    exact applySetCells_immutable calls gs r c hi

/-- Witness for C4: on the concrete grid `wGS`, a write to the mutable cell
(0,1) succeeds and a sequence of writes aimed at the immutable cell (1,1)
leaves it unchanged. -/
theorem C4_setCell_spec_witness :
    (wGS.setCell 0 1 (some Val.orange)).2 = true ∧
      (applySetCells wGS
        [(1, 1, some Val.orange), (1, 1, none)]).cellAt 1 1 = wGS.cellAt 1 1 :=
  ⟨(C4_setCell_spec wGS 0 1 (some Val.orange) (by decide)
      (by decide)).1.mpr (by decide),
   (C4_setCell_spec wGS 1 1 none (by decide) (by decide)).2.2.2 (by decide)
      [(1, 1, some Val.orange), (1, 1, none)]⟩

/-! ### C2: balance violations, one record per exceeded side -/

theorem countP_flatMap {α β : Type} (l : List α) (f : α → List β)
    (p : β → Bool) :
    (l.flatMap f).countP p = (l.map fun a => (f a).countP p).sum := by
  induction l with
  | nil => rfl
  | cons x xs ih => simp [List.flatMap_cons, List.countP_append, ih]

theorem sum_map_range_single (n r : Nat) (g : Nat → Nat) (hr : r < n)
    (hg : ∀ j, j ≠ r → g j = 0) : ((List.range n).map g).sum = g r := by
  induction n with
  | zero => omega
  | succ n ih =>
    rw [List.range_succ, List.map_append, List.sum_append]
    by_cases h : r = n
    · have hz : ((List.range n).map g).sum = 0 := by
        apply List.sum_eq_zero
        intro x hx
        rcases List.mem_map.1 hx with ⟨j, hj, rfl⟩
        exact hg j (by rw [List.mem_range] at hj; omega)
      rw [hz, h]
      simp
    · rw [ih (by omega)]
      simp [hg n fun he => h he.symm]

theorem countP_flatMap_zero {α β : Type} (l : List α) (f : α → List β)
    (p : β → Bool) (h : ∀ a ∈ l, ∀ b ∈ f a, p b = false) :
    (l.flatMap f).countP p = 0 := by
  rw [List.countP_eq_zero]
  intro b hb
  rcases List.mem_flatMap.1 hb with ⟨a, ha, hbf⟩
  simp [h a ha b hbf]

theorem countP_add_countP_le_length {α : Type} (l : List α) (p q : α → Bool)
    (h : ∀ x ∈ l, ¬(p x = true ∧ q x = true)) :
    l.countP p + l.countP q ≤ l.length := by
  induction l with
  | nil => simp
  | cons x xs ih =>
    have hx := h x (List.mem_cons_self x xs)
    have hxs := ih fun y hy => h y (List.mem_cons_of_mem x hy)
    rw [List.countP_cons, List.countP_cons, List.length_cons]
    by_cases hp : p x = true <;> by_cases hq : q x = true <;>
      simp [hp, hq] at hx ⊢ <;> omega

/-- In any row, the two symbol counts sum to at most the row length, so they
cannot both exceed `ceil(size/2)`. -/
theorem row_not_both_exceed (gs : GridSystem) (r : Nat) :
    ¬(rowOrangeCount gs r > maxAllowed gs.size ∧
      rowMoonCount gs r > maxAllowed gs.size) := by
  intro ⟨h1, h2⟩
  have hsum := countP_add_countP_le_length (List.range gs.size)
    (fun c => cellVal gs r c == some .orange)
    (fun c => cellVal gs r c == some .moon)
    (by
      intro x _ hx
      rcases hx with ⟨ho, hm⟩
      rw [beq_iff_eq] at ho hm
      rw [ho] at hm
      cases hm)
  rw [List.length_range] at hsum
  unfold rowOrangeCount at h1
  unfold rowMoonCount at h2
  unfold maxAllowed at h1 h2
  omega

theorem col_not_both_exceed (gs : GridSystem) (c : Nat) :
    ¬(colOrangeCount gs c > maxAllowed gs.size ∧
      colMoonCount gs c > maxAllowed gs.size) := by
  intro ⟨h1, h2⟩
  have hsum := countP_add_countP_le_length (List.range gs.size)
    (fun r => cellVal gs r c == some .orange)
    (fun r => cellVal gs r c == some .moon)
    (by
      intro x _ hx
      rcases hx with ⟨ho, hm⟩
      rw [beq_iff_eq] at ho hm
      rw [ho] at hm
      cases hm)
  rw [List.length_range] at hsum
  unfold colOrangeCount at h1
  unfold colMoonCount at h2
  unfold maxAllowed at h1 h2
  omega

/-- C2: for every grid state and line, `validateBalance` emits exactly one
record per symbol side whose count exceeds `ceil(size/2)` — the number of
records for a given row (resp. column) equals the sum of the two per-side
indicators.  (The two sides can never both exceed the cap, by
`row_not_both_exceed`, so the code's single `||`-guarded push is extensionally
one record per exceeded side.) -/
theorem C2_balance_per_side (gs : GridSystem) (i : Nat) (hi : i < gs.size) :
    ((validateBalance gs).countP fun e =>
        decide (e.direction = Dir.row ∧ e.index = i))
      = (if rowOrangeCount gs i > maxAllowed gs.size then 1 else 0)
        + (if rowMoonCount gs i > maxAllowed gs.size then 1 else 0)
    ∧ ((validateBalance gs).countP fun e =>
        decide (e.direction = Dir.column ∧ e.index = i))
      = (if colOrangeCount gs i > maxAllowed gs.size then 1 else 0)
        + (if colMoonCount gs i > maxAllowed gs.size then 1 else 0) := by
  constructor
  · unfold validateBalance
    rw [List.countP_append, countP_flatMap,
      sum_map_range_single gs.size i _ hi ?hgz, countP_flatMap_zero _ _ _ ?hcz,
      Nat.add_zero]
    case hgz =>
      intro j hj
      split <;> simp [List.countP_cons, hj]
    case hcz =>
      intro a _ b hb
      split at hb
      · rcases List.mem_singleton.1 hb with rfl
        simp
      · cases hb
    split <;> rename_i hcond
    · have hnb := row_not_both_exceed gs i
      rw [List.countP_cons, List.countP_nil]
      by_cases ho : rowOrangeCount gs i > maxAllowed gs.size <;>
        by_cases hm : rowMoonCount gs i > maxAllowed gs.size
      · exact absurd ⟨ho, hm⟩ hnb
      · simp [ho, hm]
      · simp [ho, hm]
      · rcases hcond with h | h
        · exact absurd h ho
        · exact absurd h hm
    · push_neg at hcond
      rw [if_neg (by omega), if_neg (by omega)]
      simp
  · unfold validateBalance
    rw [List.countP_append, countP_flatMap_zero _ _ _ ?hrz, countP_flatMap,
      sum_map_range_single gs.size i _ hi ?hgz2, Nat.zero_add]
    case hrz =>
      intro a _ b hb
      split at hb
      · rcases List.mem_singleton.1 hb with rfl
        simp
      · cases hb
    case hgz2 =>
      intro j hj
      split <;> simp [List.countP_cons, hj]
    split <;> rename_i hcond
    · have hnb := col_not_both_exceed gs i
      rw [List.countP_cons, List.countP_nil]
      by_cases ho : colOrangeCount gs i > maxAllowed gs.size <;>
        by_cases hm : colMoonCount gs i > maxAllowed gs.size
      · exact absurd ⟨ho, hm⟩ hnb
      · simp [ho, hm]
      · simp [ho, hm]
      · rcases hcond with h | h
        · exact absurd h ho
        · exact absurd h hm
    · push_neg at hcond
      rw [if_neg (by omega), if_neg (by omega)]
      simp

/-- Witness for C2 on the concrete grid `wGSbal` (row 0 holds two oranges in a
2×2 grid, exceeding the cap of 1). -/
theorem C2_balance_per_side_witness :
    ((validateBalance wGSbal).countP fun e =>
        decide (e.direction = Dir.row ∧ e.index = 0))
      = (if rowOrangeCount wGSbal 0 > maxAllowed wGSbal.size then 1 else 0)
        + (if rowMoonCount wGSbal 0 > maxAllowed wGSbal.size then 1 else 0) :=
  (C2_balance_per_side wGSbal 0 (by decide)).1

/-! ### C3: adjacency violations, one overlapping window per crossing -/

theorem scanLine_cur (v : Nat → Option Val) (mk : Nat → Option Val → AdjErr)
    (c : Nat) : (scanLine v mk c).2.1 = v c := by
  induction c with
  | zero => rfl
  | succ c ih =>
    show (scanStep v mk (c + 1) (scanLine v mk c)).2.1 = v (c + 1)
    unfold scanStep
    split <;> rename_i h
    · simpa using h.1.symm
    · rfl

theorem scanLine_cnt (v : Nat → Option Val) (mk : Nat → Option Val → AdjErr)
    (c : Nat) : (scanLine v mk c).1 = runLen v c := by
  induction c with
  | zero => rfl
  | succ c ih =>
    show (scanStep v mk (c + 1) (scanLine v mk c)).1 = runLen v (c + 1)
    unfold scanStep
    rw [scanLine_cur, ih]
    split <;> rename_i h <;> simp [runLen, h]

theorem runLen_pos (v : Nat → Option Val) (c : Nat) : 1 ≤ runLen v c := by
  cases c with
  | zero => simp [runLen]
  | succ c =>
    simp only [runLen]
    split <;> omega

theorem runLen_ge_two (v : Nat → Option Val) (c : Nat) :
    2 ≤ runLen v c ↔ 1 ≤ c ∧ v c = v (c - 1) ∧ v c ≠ none := by
  cases c with
  | zero => simp [runLen]
  | succ c =>
    simp only [runLen]
    split <;> rename_i h
    · have := runLen_pos v c
      constructor
      · intro _
        refine ⟨by omega, ?_, ?_⟩
        · simpa using h.1
        · rw [h.1]
          exact h.2
      · intro _
        omega
    · constructor
      · intro h2
        omega
      · intro ⟨h1, h2, h3⟩
        exfalso
        apply h
        have h2' : v (c + 1) = v c := by simpa using h2
        exact ⟨h2', fun hn => h3 (h2'.trans hn)⟩

/-- The scan's error list is exactly one record per index at which the last
three cells are equal and non-empty, in index order, each citing the window
`[j-2, j]`. -/
theorem scanLine_errors (v : Nat → Option Val) (mk : Nat → Option Val → AdjErr)
    (c : Nat) :
    (scanLine v mk c).2.2
      = ((List.range (c + 1)).filter fun j =>
          decide (2 ≤ j ∧ v j = v (j - 1) ∧ v (j - 1) = v (j - 2) ∧
            v j ≠ none)).map fun j => mk j (v j) := by
  induction c with
  | zero =>
    show ([] : List AdjErr) = _
    rw [show List.range 1 = [0] from rfl]
    simp
  | succ c ih =>
    show (scanStep v mk (c + 1) (scanLine v mk c)).2.2 = _
    unfold scanStep
    rw [scanLine_cur, scanLine_cnt, List.range_succ (c + 1),
      List.filter_append, List.map_append, ih]
    split <;> rename_i h
    · by_cases h2 : runLen v c + 1 > 2
      · rw [if_pos h2]
        have hrl := (runLen_ge_two v c).1 (by omega)
        have hp : (decide (2 ≤ c + 1 ∧ v (c + 1) = v (c + 1 - 1) ∧
            v (c + 1 - 1) = v (c + 1 - 2) ∧ v (c + 1) ≠ none)) = true := by
          apply decide_eq_true
          refine ⟨by omega, h.1, hrl.2.1, ?_⟩
          rw [h.1]
          exact h.2
        simp only [List.filter_cons, List.filter_nil, hp, if_pos,
          List.map_cons, List.map_nil]
        rw [h.1]
      · rw [if_neg h2]
        have hp : (decide (2 ≤ c + 1 ∧ v (c + 1) = v (c + 1 - 1) ∧
            v (c + 1 - 1) = v (c + 1 - 2) ∧ v (c + 1) ≠ none)) = false := by
          apply decide_eq_false
          intro ⟨hc1, hc2, hc3, hc4⟩
          have : 2 ≤ runLen v c := by
            rw [runLen_ge_two]
            exact ⟨by omega, hc3, fun hn => hc4 (hc2.trans hn)⟩
          omega
        simp only [List.filter_cons, List.filter_nil, hp]
        simp
    · have hp : (decide (2 ≤ c + 1 ∧ v (c + 1) = v (c + 1 - 1) ∧
          v (c + 1 - 1) = v (c + 1 - 2) ∧ v (c + 1) ≠ none)) = false := by
        apply decide_eq_false
        intro ⟨hc1, hc2, hc3, hc4⟩
        apply h
        have hc2' : v (c + 1) = v c := hc2
        exact ⟨hc2', fun hn => hc4 (hc2'.trans hn)⟩
      simp only [List.filter_cons, List.filter_nil, hp]
      simp

theorem lineErrors_char (v : Nat → Option Val) (mk : Nat → Option Val → AdjErr)
    (size : Nat) :
    lineErrors v mk size
      = ((List.range size).filter fun j =>
          decide (2 ≤ j ∧ v j = v (j - 1) ∧ v (j - 1) = v (j - 2) ∧
            v j ≠ none)).map fun j => mk j (v j) := by
  cases size with
  | zero => rfl
  | succ n => exact scanLine_errors v mk n

theorem countP_range_Ico :
    ∀ n lo hi : Nat, lo ≤ hi → hi ≤ n →
      ((List.range n).countP fun j => decide (lo ≤ j ∧ j < hi)) = hi - lo := by
  intro n
  induction n with
  | zero =>
    intro lo hi h1 h2
    simp
    omega
  | succ n ih =>
    intro lo hi h1 h2
    rw [List.range_succ, List.countP_append]
    by_cases hh : hi ≤ n
    · rw [ih lo hi h1 hh]
      have hn : ¬(lo ≤ n ∧ n < hi) := by omega
      simp [List.countP_cons, hn]
    · have hhi : hi = n + 1 := by omega
      subst hhi
      have hcong : ((List.range n).countP fun j => decide (lo ≤ j ∧ j < n + 1))
          = ((List.range n).countP fun j => decide (lo ≤ j ∧ j < n)) := by
        apply List.countP_congr
        intro j hj
        rw [List.mem_range] at hj
        constructor <;> intro hx <;> rw [decide_eq_true_eq] at hx ⊢ <;> omega
      rw [hcong]
      by_cases hln : lo ≤ n
      · rw [ih lo n hln (Nat.le_refl n)]
        have hn : lo ≤ n ∧ n < n + 1 := ⟨hln, by omega⟩
        simp [List.countP_cons, hn]
        omega
      · have hz : ((List.range n).countP fun j => decide (lo ≤ j ∧ j < n)) = 0 := by
          rw [List.countP_eq_zero]
          intro j hj
          rw [List.mem_range] at hj
          simp
          omega
        rw [hz]
        simp [List.countP_cons, hln]
        omega

/-- C3: `validateAdjacentLimits` reports, per row scanned left-to-right and
per column scanned top-to-bottom, exactly one record at every index whose
last three cells are equal and non-empty, citing the window `[j-2, j]`
(first conjunct); and along any line, a maximal run of `L ≥ 3` equal
non-empty cells yields exactly `L - 2` overlapping window records (second
conjunct). -/
theorem C3_adjacent_windows (gs : GridSystem) :
    (validateAdjacentLimits gs
      = ((List.range gs.size).flatMap fun r =>
          ((List.range gs.size).filter fun j =>
            decide (2 ≤ j ∧ cellVal gs r j = cellVal gs r (j - 1) ∧
              cellVal gs r (j - 1) = cellVal gs r (j - 2) ∧
              cellVal gs r j ≠ none)).map fun j =>
            AdjErr.horizontal r (j - 2) j (cellVal gs r j))
        ++ ((List.range gs.size).flatMap fun c =>
          ((List.range gs.size).filter fun j =>
            decide (2 ≤ j ∧ cellVal gs j c = cellVal gs (j - 1) c ∧
              cellVal gs (j - 1) c = cellVal gs (j - 2) c ∧
              cellVal gs j c ≠ none)).map fun j =>
            AdjErr.vertical c (j - 2) j (cellVal gs j c)))
    ∧ (∀ (v : Nat → Option Val) (r size a L : Nat) (w : Val),
        3 ≤ L → a + L ≤ size →
        (∀ i, i < L → v (a + i) = some w) →
        (a = 0 ∨ v (a - 1) ≠ some w) →
        (a + L = size ∨ v (a + L) ≠ some w) →
        ((lineErrors v (fun j cur => AdjErr.horizontal r (j - 2) j cur)
            size).countP fun e =>
          match e with
          | AdjErr.horizontal _ _ endCol _ => decide (a ≤ endCol ∧ endCol < a + L)
          | AdjErr.vertical _ _ _ _ => false) = L - 2) := by
  constructor
  · unfold validateAdjacentLimits
    simp only [lineErrors_char]
  · intro v r size a L w hL hsz hrun hleft hright
    rw [lineErrors_char, List.countP_map, List.countP_filter]
    have hcong : ((List.range size).countP fun j =>
          ((fun e =>
            match e with
            | AdjErr.horizontal _ _ endCol _ =>
              decide (a ≤ endCol ∧ endCol < a + L)
            | AdjErr.vertical _ _ _ _ => false) ∘
            fun j => AdjErr.horizontal r (j - 2) j (v j)) j &&
            decide (2 ≤ j ∧ v j = v (j - 1) ∧ v (j - 1) = v (j - 2) ∧
              v j ≠ none))
        = ((List.range size).countP fun j => decide (a + 2 ≤ j ∧ j < a + L)) := by
      apply List.countP_congr
      intro j hj
      rw [List.mem_range] at hj
      simp only [Function.comp_apply, Bool.and_eq_true, decide_eq_true_eq]
      constructor
      · intro ⟨⟨hja, hjL⟩, h2j, he1, he2, hne⟩
        rcases Nat.lt_or_ge j (a + 2) with hlt | hge
        · exfalso
          have hj_cases : j = a ∨ j = a + 1 := by omega
          rcases hj_cases with heq | heq
          · rcases hleft with h0 | hvx
            · omega
            · apply hvx
              have hja0 : v a = some w := by
                have := hrun 0 (by omega)
                simpa using this
              rw [heq] at he1
              rw [← he1, hja0]
          · rcases hleft with h0 | hvx
            · omega
            · apply hvx
              have hva : v a = some w := by
                have := hrun 0 (by omega)
                simpa using this
              rw [heq] at he2
              have e1 : a + 1 - 1 = a := by omega
              have e2 : a + 1 - 2 = a - 1 := by omega
              rw [e1, e2] at he2
              rw [← he2, hva]
        · exact ⟨hge, hjL⟩
      · intro ⟨hge, hjL⟩
        have hv0 : v j = some w := by
          have := hrun (j - a) (by omega)
          have e : a + (j - a) = j := by omega
          rwa [e] at this
        have hv1 : v (j - 1) = some w := by
          have := hrun (j - a - 1) (by omega)
          have e : a + (j - a - 1) = j - 1 := by omega
          rwa [e] at this
        have hv2 : v (j - 2) = some w := by
          have := hrun (j - a - 2) (by omega)
          have e : a + (j - a - 2) = j - 2 := by omega
          rwa [e] at this
        refine ⟨⟨by omega, hjL⟩, by omega, ?_, ?_, ?_⟩
        · rw [hv0, hv1]
        · rw [hv1, hv2]
        · rw [hv0]
          exact Option.some_ne_none w
    rw [hcong, countP_range_Ico size (a + 2) (a + L) (by omega) hsz]
    omega

/-- Witness for C3: a full-width run of 5 oranges yields 5 − 2 = 3 records. -/
theorem C3_adjacent_windows_witness :
    (lineErrors wLine (fun j cur => AdjErr.horizontal 0 (j - 2) j cur)
        5).countP (fun e =>
      match e with
      | AdjErr.horizontal _ _ endCol _ => decide (0 ≤ endCol ∧ endCol < 0 + 5)
      | AdjErr.vertical _ _ _ _ => false) = 5 - 2 :=
  (C3_adjacent_windows (GridSystem.new 0)).2 wLine 0 5 0 5 Val.orange
    (by omega) (by omega) (by intro i hi; simp [wLine]; omega)
    (Or.inl rfl) (Or.inl rfl)

/-! ### makeMove decomposition (shared by C6, C7, C9) -/

theorem isGameCompleted_completeGame (gm : GameManager) (now : Int) :
    (gm.completeGame now).isGameCompleted = gm.isGameCompleted := rfl

theorem pauseTimer_not_running (t : Timer) (now : Int) :
    (pauseTimer t now).isRunning = false := by
  unfold pauseTimer
  split <;> rename_i h
  · rfl
  · simpa using h

theorem startTimer_running (t : Timer) (now : Int) :
    (startTimer t now).isRunning = true := by
  unfold startTimer
  split <;> rename_i h
  · simpa using h
  · rfl

/-- Full behavioural decomposition of `makeMove`: success condition, the
success path's effect on history/cursor/grid and the automatic completion
check, and the failure-from-`ready` path's side effects. -/
theorem makeMove_spec (gm : GameManager) (r c : Nat) (v : Option Val)
    (now : Int) :
    ((gm.makeMove r c v now).2.success = true ↔
      (gm.gameState = .playing ∨ gm.gameState = .ready) ∧
        (gm.gridSystem.setCell r c v).2 = true)
    ∧ ((gm.makeMove r c v now).2.success = true →
        (gm.makeMove r c v now).1.moveHistory
          = gm.moveHistory.take (gm.currentMoveIndex + 1).toNat
            ++ [⟨r, c, ((gm.gridSystem.getCell r c).map (·.value)).getD none,
                v, now⟩]
        ∧ (gm.makeMove r c v now).1.currentMoveIndex
            = gm.currentMoveIndex + 1
        ∧ (gm.makeMove r c v now).1.gridSystem = (gm.gridSystem.setCell r c v).1
        ∧ ((gm.makeMove r c v now).1.isGameCompleted = true →
            (gm.makeMove r c v now).1.gameState = .completed ∧
              (gm.makeMove r c v now).1.timer.isRunning = false)
        ∧ ((gm.makeMove r c v now).1.isGameCompleted = false →
            (gm.makeMove r c v now).1.gameState = .playing)
        ∧ (gm.makeMove r c v now).2.gameState
            = some (gm.makeMove r c v now).1.gameState)
    ∧ (gm.gameState = .ready → (gm.makeMove r c v now).2.success = false →
        (gm.makeMove r c v now).1.gameState = .playing
        ∧ (gm.makeMove r c v now).1.timer.isRunning = true
        ∧ (gm.makeMove r c v now).2.reason = some "Invalid move"
        ∧ (gm.makeMove r c v now).1.gridSystem = gm.gridSystem)
    ∧ ((gm.gameState ≠ .playing ∧ gm.gameState ≠ .ready) →
        (gm.makeMove r c v now) = (gm, ⟨false, some "Game not active",
          none, none, none, none⟩)) := by
  by_cases h1 : gm.gameState ≠ GState.playing ∧ gm.gameState ≠ GState.ready
  · rw [GameManager.makeMove, if_pos h1]
    refine ⟨?_, ?_, ?_, fun _ => rfl⟩
    · simp only [show (⟨false, some "Game not active", none, none, none,
        none⟩ : MoveResult).success = false from rfl]
      constructor
      · intro h
        cases h
      · intro ⟨ha, _⟩
        rcases ha with ha | ha <;> exact absurd ha (by tauto)
    · intro h
      cases h
    · intro hr
      exact absurd hr h1.2
  · rw [GameManager.makeMove, if_neg h1]
    by_cases hr : gm.gameState = GState.ready
    · rw [if_pos hr, GameManager.startGame, if_pos (Or.inl hr)]
      by_cases hok : (gm.gridSystem.setCell r c v).2 = true
      · refine ⟨?_, ?_, ?_, ?_⟩
        · rw [if_pos hok]
          exact ⟨fun _ => ⟨Or.inr hr, hok⟩, fun _ => rfl⟩
        · intro _
          rw [if_pos hok]
          dsimp only
          refine ⟨by split <;> rfl, by split <;> rfl, by split <;> rfl,
            ?_, ?_, rfl⟩
          · intro hc
            split at hc <;> rename_i hcomp
            · constructor
              · rw [if_pos hcomp]
                rfl
              · rw [if_pos hcomp]
                exact pauseTimer_not_running _ now
            · exact absurd hc hcomp
          · intro hc
            split at hc <;> rename_i hcomp
            · rw [isGameCompleted_completeGame] at hc
              rw [hcomp] at hc
              cases hc
            · rw [if_neg hcomp]
              rfl
        · intro _ hs
          rw [if_pos hok] at hs
          exact Bool.noConfusion hs
        · intro habs
          exact absurd hr habs.2
      · refine ⟨?_, ?_, ?_, ?_⟩
        · rw [if_neg hok]
          exact ⟨fun h => Bool.noConfusion h, fun h2 => absurd h2.2 hok⟩
        · intro hs
          rw [if_neg hok] at hs
          exact Bool.noConfusion hs
        · intro _ _
          rw [if_neg hok]
          exact ⟨rfl, startTimer_running _ now, rfl, rfl⟩
        · intro habs
          exact absurd hr habs.2
    · have hp : gm.gameState = GState.playing := by tauto
      rw [if_neg hr]
      by_cases hok : (gm.gridSystem.setCell r c v).2 = true
      · refine ⟨?_, ?_, ?_, ?_⟩
        · rw [if_pos hok]
          exact ⟨fun _ => ⟨Or.inl hp, hok⟩, fun _ => rfl⟩
        · intro _
          rw [if_pos hok]
          dsimp only
          refine ⟨by split <;> rfl, by split <;> rfl, by split <;> rfl,
            ?_, ?_, rfl⟩
          · intro hc
            split at hc <;> rename_i hcomp
            · constructor
              · rw [if_pos hcomp]
                rfl
              · rw [if_pos hcomp]
                exact pauseTimer_not_running _ now
            · exact absurd hc hcomp
          · intro hc
            split at hc <;> rename_i hcomp
            · rw [isGameCompleted_completeGame] at hc
              rw [hcomp] at hc
              cases hc
            · rw [if_neg hcomp]
              exact hp
        · intro hrd
          exact absurd hrd hr
        · intro habs
          exact absurd hp habs.1
      · refine ⟨?_, ?_, ?_, ?_⟩
        · rw [if_neg hok]
          exact ⟨fun h => Bool.noConfusion h, fun h2 => absurd h2.2 hok⟩
        · intro hs
          rw [if_neg hok] at hs
          exact Bool.noConfusion hs
        · intro hrd
          exact absurd hrd hr
        · intro habs
          exact absurd hp habs.1

/-- C6: recording a successful move truncates the history to the cursor
(inclusive), appends the new record, and advances the cursor by one; in
particular, with history `[A,B,C]` and the cursor rewound to `A`, recording a
new move `D` yields history `[A, D]`.  The last conjunct states the same
through `makeMove`'s success path. -/
theorem C6_recordMove_truncates (gm : GameManager) (r c : Nat)
    (pv nv v : Option Val) (now : Int) :
    ((gm.recordMove r c pv nv now).moveHistory
        = gm.moveHistory.take (gm.currentMoveIndex + 1).toNat
          ++ [⟨r, c, pv, nv, now⟩]
      ∧ (gm.recordMove r c pv nv now).currentMoveIndex
        = gm.currentMoveIndex + 1)
    ∧ (∀ A B C : MoveRecord,
        ({ gm with moveHistory := [A, B, C], currentMoveIndex := 0
          }.recordMove r c pv nv now).moveHistory = [A, ⟨r, c, pv, nv, now⟩]
        ∧ ({ gm with moveHistory := [A, B, C], currentMoveIndex := 0
          }.recordMove r c pv nv now).currentMoveIndex = 1)
    ∧ ((gm.makeMove r c v now).2.success = true →
        (gm.makeMove r c v now).1.moveHistory
          = gm.moveHistory.take (gm.currentMoveIndex + 1).toNat
            ++ [⟨r, c, ((gm.gridSystem.getCell r c).map (·.value)).getD none,
                v, now⟩]
        ∧ (gm.makeMove r c v now).1.currentMoveIndex
          = gm.currentMoveIndex + 1) := by
  refine ⟨⟨rfl, rfl⟩, ?_, ?_⟩
  · intro A B C
    exact ⟨rfl, rfl⟩
  · intro hs
    have h := (makeMove_spec gm r c v now).2.1 hs
    exact ⟨h.1, h.2.1⟩

/-- Witness for C6: a concrete successful move on `wGM` appends to the
(empty) truncated history. -/
theorem C6_recordMove_truncates_witness :
    (wGM.makeMove 0 0 (some Val.orange) 11).1.moveHistory
      = wGM.moveHistory.take (wGM.currentMoveIndex + 1).toNat
        ++ [⟨0, 0, ((wGM.gridSystem.getCell 0 0).map (·.value)).getD none,
            some Val.orange, 11⟩] :=
  ((C6_recordMove_truncates wGM 0 0 none none (some Val.orange) 11).2.2
    (by decide)).1

/-- C7: `isGameCompleted` is false whenever some cell is empty (regardless of
the validator), and true exactly when every cell is non-empty and the
validator accepts; the check runs after every successful move, and when it
holds the session transitions to Completed with the timer paused. -/
theorem C7_completion (gm : GameManager) :
    ((∃ r, r < gm.gridSystem.size ∧ ∃ c, c < gm.gridSystem.size ∧
        cellVal gm.gridSystem r c = none) → gm.isGameCompleted = false)
    ∧ (gm.isGameCompleted = true ↔
        (∀ r, r < gm.gridSystem.size → ∀ c, c < gm.gridSystem.size →
          cellVal gm.gridSystem r c ≠ none) ∧ isValid gm.gridSystem = true)
    ∧ (∀ (r c : Nat) (v : Option Val) (now : Int),
        (gm.makeMove r c v now).2.success = true →
        ((gm.makeMove r c v now).1.isGameCompleted = true →
          (gm.makeMove r c v now).1.gameState = .completed ∧
            (gm.makeMove r c v now).1.timer.isRunning = false)
        ∧ ((gm.makeMove r c v now).1.isGameCompleted = false →
          (gm.makeMove r c v now).1.gameState = .playing)) := by
  have hiff : gm.isGameCompleted = true ↔
      (∀ r, r < gm.gridSystem.size → ∀ c, c < gm.gridSystem.size →
        cellVal gm.gridSystem r c ≠ none) ∧ isValid gm.gridSystem = true := by
    unfold GameManager.isGameCompleted
    rw [Bool.and_eq_true]
    constructor
    · intro ⟨hall, hv⟩
      refine ⟨?_, hv⟩
      intro r hr c hc
      rw [List.all_eq_true] at hall
      have := hall r (List.mem_range.2 hr)
      rw [List.all_eq_true] at this
      have := this c (List.mem_range.2 hc)
      rw [Bool.not_eq_true'] at this
      intro hn
      rw [hn] at this
      cases this
    · intro ⟨hall, hv⟩
      refine ⟨?_, hv⟩
      rw [List.all_eq_true]
      intro r hr
      rw [List.all_eq_true]
      intro c hc
      rw [List.mem_range] at hr hc
      rw [Bool.not_eq_true']
      cases hcv : cellVal gm.gridSystem r c with
      | none => exact absurd hcv (hall r hr c hc)
      | some a => rfl
  refine ⟨?_, hiff, ?_⟩
  · intro ⟨r, hr, c, hc, hnone⟩
    cases hgc : gm.isGameCompleted
    · rfl
    · exact absurd hnone ((hiff.1 hgc).1 r hr c hc)
  · intro r c v now hs
    have h := (makeMove_spec gm r c v now).2.1 hs
    exact ⟨h.2.2.2.1, h.2.2.2.2.1⟩

/-- Witness for C7: filling the single cell of the 1×1 session `wGM`
completes the game and pauses the timer. -/
theorem C7_completion_witness :
    (wGM.makeMove 0 0 (some Val.orange) 11).1.gameState = GState.completed ∧
      (wGM.makeMove 0 0 (some Val.orange) 11).1.timer.isRunning = false :=
  ((C7_completion wGM).2.2 0 0 (some Val.orange) 11 (by decide)).1 (by decide)

/-- C9: a `makeMove` issued while Ready fails exactly when the underlying
`setCell` refuses, and such a failed move still has the side effect of
starting the game and the timer: the session is left Playing with the timer
running, the grid unchanged, and the result is
`{success: false, reason: "Invalid move"}`. -/
theorem C9_ready_move_side_effects (gm : GameManager) (r c : Nat)
    (v : Option Val) (now : Int) (hr : gm.gameState = GState.ready) :
    ((gm.makeMove r c v now).2.success = false ↔
      (gm.gridSystem.setCell r c v).2 = false)
    ∧ ((gm.makeMove r c v now).2.success = false →
        (gm.makeMove r c v now).1.gameState = .playing
        ∧ (gm.makeMove r c v now).1.timer.isRunning = true
        ∧ (gm.makeMove r c v now).2.reason = some "Invalid move"
        ∧ (gm.makeMove r c v now).1.gridSystem = gm.gridSystem) := by
  have hspec := makeMove_spec gm r c v now
  constructor
  · constructor
    · intro hf
      cases hcell : (gm.gridSystem.setCell r c v).2
      · rfl
      · have := hspec.1.mpr ⟨Or.inr hr, hcell⟩
        rw [this] at hf
        cases hf
    · intro hcell
      cases hs : (gm.makeMove r c v now).2.success
      · rfl
      · have := (hspec.1.1 hs).2
        rw [hcell] at this
        cases this
  · intro hf
    exact hspec.2.2.1 hr hf

/-- Witness for C9: on `wGMready`, writing to the immutable cell (0,0) fails
but still flips the session to Playing with a running timer. -/
theorem C9_ready_move_side_effects_witness :
    (wGMready.makeMove 0 0 (some Val.moon) 4).1.gameState = GState.playing ∧
      (wGMready.makeMove 0 0 (some Val.moon) 4).1.timer.isRunning = true ∧
      (wGMready.makeMove 0 0 (some Val.moon) 4).2.reason = some "Invalid move" ∧
      (wGMready.makeMove 0 0 (some Val.moon) 4).1.gridSystem
        = wGMready.gridSystem :=
  (C9_ready_move_side_effects wGMready 0 0 (some Val.moon) 4 (by decide)).2
    (by decide)

/-! ### C5 and C10: undo/redo -/

/-- C5: with a recorded move at the cursor (as produced by `recordMove`: the
move's cell is in bounds, writable, and currently holds the move's
`newValue`), `undo()` followed by `redo()` restores the exact pre-undo
session state — the cell holds `newValue` again and `currentMoveIndex` is
back at its pre-undo position. -/
theorem C5_undo_redo_roundtrip (gm : GameManager) (move : MoveRecord)
    (hm : gm.moveHistory.getD gm.currentMoveIndex.toNat defaultMove = move)
    (h0 : 0 ≤ gm.currentMoveIndex)
    (h1 : gm.currentMoveIndex < (gm.moveHistory.length : Int))
    (hbr : move.row < gm.gridSystem.size)
    (hbc : move.col < gm.gridSystem.size)
    (him : (gm.gridSystem.cellAt move.row move.col).immutable = false)
    (hval : cellVal gm.gridSystem move.row move.col = move.newValue)
    (hg : gm.gridSystem.grid.length = gm.gridSystem.size)
    (hrow : ∀ l ∈ gm.gridSystem.grid, l.length = gm.gridSystem.size) :
    gm.undo.2.success = true
    ∧ gm.undo.1.currentMoveIndex = gm.currentMoveIndex - 1
    ∧ gm.undo.1.redo.2.success = true
    ∧ gm.undo.1.redo.1 = gm := by
  have hsc1 : (gm.gridSystem.setCell move.row move.col move.previousValue).2
      = true :=
    (gm.gridSystem.setCell_snd_iff _ _ _).2 ⟨hbr, hbc, him⟩
  have hu : gm.undo = ({ gm with
        gridSystem := (gm.gridSystem.setCell move.row move.col
          move.previousValue).1
        currentMoveIndex := gm.currentMoveIndex - 1 },
      ⟨true, some move, decide (0 ≤ gm.currentMoveIndex - 1),
        decide (gm.currentMoveIndex - 1 < (gm.moveHistory.length : Int) - 1),
        none⟩) := by
    unfold GameManager.undo
    rw [if_pos h0]
    dsimp only
    rw [hm, if_pos hsc1]
  have hsize1 : (gm.gridSystem.setCell move.row move.col
      move.previousValue).1.size = gm.gridSystem.size :=
    gm.gridSystem.setCell_size _ _ _
  have hcell1 : (gm.gridSystem.setCell move.row move.col
        move.previousValue).1.cellAt move.row move.col
      = { gm.gridSystem.cellAt move.row move.col with
          value := move.previousValue } :=
    gm.gridSystem.cellAt_setCell_self _ _ _ hg hrow hsc1
  have hsc2 : ((gm.gridSystem.setCell move.row move.col
        move.previousValue).1.setCell move.row move.col move.newValue).2
      = true := by
    apply ((gm.gridSystem.setCell move.row move.col
      move.previousValue).1.setCell_snd_iff _ _ _).2
    refine ⟨by rw [hsize1]; exact hbr, by rw [hsize1]; exact hbc, ?_⟩
    rw [hcell1]
    exact him
  have hidx : gm.currentMoveIndex - 1 + 1 = gm.currentMoveIndex := by omega
  have hcond2 : gm.currentMoveIndex - 1 < (gm.moveHistory.length : Int) - 1 :=
    by omega
  have hre : ({ gm with
        gridSystem := (gm.gridSystem.setCell move.row move.col
          move.previousValue).1
        currentMoveIndex := gm.currentMoveIndex - 1 } : GameManager).redo
      = ({ gm with
          gridSystem := ((gm.gridSystem.setCell move.row move.col
            move.previousValue).1.setCell move.row move.col move.newValue).1
          currentMoveIndex := gm.currentMoveIndex },
        ⟨true, some move, decide (0 ≤ gm.currentMoveIndex),
          decide (gm.currentMoveIndex < (gm.moveHistory.length : Int) - 1),
          none⟩) := by
    unfold GameManager.redo
    dsimp only
    rw [if_pos hcond2, hidx, hm, if_pos hsc2]
  have hC2 : ({ { gm.gridSystem.cellAt move.row move.col with
        value := move.previousValue } with value := move.newValue } : Cell)
      = gm.gridSystem.cellAt move.row move.col := by
    rw [← hval]
    rfl
  have hrl : move.row < gm.gridSystem.grid.length := by omega
  have hrowmem : gm.gridSystem.grid.getD move.row [] ∈ gm.gridSystem.grid := by
    rw [List.getD_eq_getElem?_getD, List.getElem?_eq_getElem hrl]
    exact List.getElem_mem hrl
  have hcl : move.col < (gm.gridSystem.grid.getD move.row []).length := by
    rw [hrow _ hrowmem]
    exact hbc
  have hgs2 : ((gm.gridSystem.setCell move.row move.col
        move.previousValue).1.setCell move.row move.col move.newValue).1
      = gm.gridSystem := by
    refine GridSystem.ext ?_ ?_ ?_
    · rw [GridSystem.setCell_size, hsize1]
    · rw [setCell_grid_of_success _ _ _ _ hsc2, hcell1,
        setCell_grid_of_success _ _ _ _ hsc1]
      rw [getD_set]
      rw [if_pos ⟨rfl, hrl⟩]
      rw [List.set_set, hC2,
        show gm.gridSystem.cellAt move.row move.col
          = (gm.gridSystem.grid.getD move.row []).getD move.col defaultCell
          from rfl,
        List.set_set, set_getD_self _ _ _ hcl, set_getD_self _ _ _ hrl]
    · rw [GridSystem.setCell_constraints, GridSystem.setCell_constraints]
  refine ⟨by rw [hu], by rw [hu], ?_, ?_⟩
  · rw [hu]
    dsimp only
    rw [hre]
  · rw [hu]
    dsimp only
    rw [hre]
    dsimp only
    refine GameManager.ext ?_ rfl rfl rfl rfl rfl rfl rfl
    exact hgs2

/-- Witness for C5 on the concrete paused session `wGMpaused`. -/
theorem C5_undo_redo_roundtrip_witness :
    wGMpaused.undo.2.success = true
    ∧ wGMpaused.undo.1.redo.2.success = true
    ∧ wGMpaused.undo.1.redo.1 = wGMpaused := by
  have h := C5_undo_redo_roundtrip wGMpaused ⟨0, 0, none, some .orange, 3⟩
    (by decide) (by decide) (by decide) (by decide) (by decide) (by decide)
    (by decide) (by decide) (by decide)
  exact ⟨h.1, h.2.2.1, h.2.2.2⟩

/-- C10: `undo`/`redo` neither consult nor change the game state — their
behaviour is identical in every game state (including Paused and Completed)
and the state field passes through unchanged (first conjunct); `undo` mutates
the grid and decrements the cursor whenever `currentMoveIndex ≥ 0` (second),
and `redo` advances the cursor and mutates the grid whenever the cursor is
below the last history index (third), the targeted cells being writable as
they are for every recorded move. -/
theorem C10_undo_redo_unguarded (gm : GameManager) (g : GState) :
    ((({ gm with gameState := g }).undo).1 = { gm.undo.1 with gameState := g }
      ∧ (({ gm with gameState := g }).undo).2 = gm.undo.2
      ∧ gm.undo.1.gameState = gm.gameState
      ∧ (({ gm with gameState := g }).redo).1 = { gm.redo.1 with gameState := g }
      ∧ (({ gm with gameState := g }).redo).2 = gm.redo.2
      ∧ gm.redo.1.gameState = gm.gameState)
    ∧ (∀ move : MoveRecord,
        gm.moveHistory.getD gm.currentMoveIndex.toNat defaultMove = move →
        0 ≤ gm.currentMoveIndex →
        move.row < gm.gridSystem.size → move.col < gm.gridSystem.size →
        (gm.gridSystem.cellAt move.row move.col).immutable = false →
        gm.gridSystem.grid.length = gm.gridSystem.size →
        (∀ l ∈ gm.gridSystem.grid, l.length = gm.gridSystem.size) →
        gm.undo.2.success = true
        ∧ gm.undo.1.currentMoveIndex = gm.currentMoveIndex - 1
        ∧ cellVal gm.undo.1.gridSystem move.row move.col = move.previousValue)
    ∧ (∀ move : MoveRecord,
        gm.moveHistory.getD (gm.currentMoveIndex + 1).toNat defaultMove = move →
        gm.currentMoveIndex < (gm.moveHistory.length : Int) - 1 →
        move.row < gm.gridSystem.size → move.col < gm.gridSystem.size →
        (gm.gridSystem.cellAt move.row move.col).immutable = false →
        gm.gridSystem.grid.length = gm.gridSystem.size →
        (∀ l ∈ gm.gridSystem.grid, l.length = gm.gridSystem.size) →
        gm.redo.2.success = true
        ∧ gm.redo.1.currentMoveIndex = gm.currentMoveIndex + 1
        ∧ cellVal gm.redo.1.gridSystem move.row move.col = move.newValue) := by
  refine ⟨⟨?_, ?_, ?_, ?_, ?_, ?_⟩, ?_, ?_⟩
  · unfold GameManager.undo
    dsimp only
    split <;> rename_i h1
    · split <;> rename_i h2 <;> rfl
    · rfl
  · unfold GameManager.undo
    dsimp only
    split <;> rename_i h1
    · split <;> rename_i h2 <;> rfl
    · rfl
  · unfold GameManager.undo
    dsimp only
    split <;> rename_i h1
    · split <;> rename_i h2 <;> rfl
    · rfl
  · unfold GameManager.redo
    dsimp only
    split <;> rename_i h1
    · split <;> rename_i h2 <;> rfl
    · rfl
  · unfold GameManager.redo
    dsimp only
    split <;> rename_i h1
    · split <;> rename_i h2 <;> rfl
    · rfl
  · unfold GameManager.redo
    dsimp only
    split <;> rename_i h1
    · split <;> rename_i h2 <;> rfl
    · rfl
  · intro move hm h0 hbr hbc him hg hrow
    have hsc1 : (gm.gridSystem.setCell move.row move.col
        move.previousValue).2 = true :=
      (gm.gridSystem.setCell_snd_iff _ _ _).2 ⟨hbr, hbc, him⟩
    have hu : gm.undo = ({ gm with
          gridSystem := (gm.gridSystem.setCell move.row move.col
            move.previousValue).1
          currentMoveIndex := gm.currentMoveIndex - 1 },
        ⟨true, some move, decide (0 ≤ gm.currentMoveIndex - 1),
          decide (gm.currentMoveIndex - 1
            < (gm.moveHistory.length : Int) - 1), none⟩) := by
      unfold GameManager.undo
      rw [if_pos h0]
      dsimp only
      rw [hm, if_pos hsc1]
    refine ⟨by rw [hu], by rw [hu], ?_⟩
    rw [hu]
    dsimp only
    unfold cellVal
    rw [gm.gridSystem.cellAt_setCell_self _ _ _ hg hrow hsc1]
  · intro move hm2 hc hbr hbc him hg hrow
    have hscr : (gm.gridSystem.setCell move.row move.col
        move.newValue).2 = true :=
      (gm.gridSystem.setCell_snd_iff _ _ _).2 ⟨hbr, hbc, him⟩
    have hre : gm.redo = ({ gm with
          gridSystem := (gm.gridSystem.setCell move.row move.col
            move.newValue).1
          currentMoveIndex := gm.currentMoveIndex + 1 },
        ⟨true, some move, decide (0 ≤ gm.currentMoveIndex + 1),
          decide (gm.currentMoveIndex + 1
            < (gm.moveHistory.length : Int) - 1), none⟩) := by
      unfold GameManager.redo
      dsimp only
      rw [if_pos hc, hm2, if_pos hscr]
    refine ⟨by rw [hre], by rw [hre], ?_⟩
    rw [hre]
    dsimp only
    unfold cellVal
    rw [gm.gridSystem.cellAt_setCell_self _ _ _ hg hrow hscr]

/-- Witness for C10: on the concrete paused session `wGMpaused`, `undo`
behaves identically with the state overridden to Completed, and it succeeds
(mutating the grid) even though the game is not Playing. -/
theorem C10_undo_redo_unguarded_witness :
    (({ wGMpaused with gameState := GState.completed }).undo).2
        = wGMpaused.undo.2
    ∧ wGMpaused.undo.2.success = true :=
  ⟨(C10_undo_redo_unguarded wGMpaused GState.completed).1.2.1,
   ((C10_undo_redo_unguarded wGMpaused GState.completed).2.1
      ⟨0, 0, none, some .orange, 3⟩ (by decide) (by decide) (by decide)
      (by decide) (by decide) (by decide) (by decide)).1⟩

/-! ### C1 and C8: seeded generation -/

/-- Generation does not depend on the prior value of the mutable generator
state: `seedRandom` overwrites `this.seedValue` with the seed hash before any
draw (and for the empty seed both runs throw identically). -/
theorem generate_prior_independent (size : Nat) (difficulty seed : String)
    (p1 p2 : Nat) :
    generate size difficulty seed p1 = generate size difficulty seed p2 := by
  unfold generate initializePuzzle
  dsimp only
  unfold seedRandomValue
  by_cases h : seed.length = 0
  · rw [if_pos h, if_pos h]
    rfl
  · rw [if_neg h, if_neg h]

/-- C1: puzzle generation is a deterministic function of
`(size, difficulty, seed)` — two runs agree on the whole resulting grid
system (immutable cells and the ordered constraint map), whatever the prior
generator state was; the generator state is seeded with the absolute value of
the seed hash and advances by exactly
`state = (state * 1664525 + 1013904223) mod 2^32` per draw. -/
theorem C1_generation_deterministic :
    (∀ (size : Nat) (difficulty seed : String) (p1 p2 : Nat),
      generate size difficulty seed p1 = generate size difficulty seed p2)
    ∧ (∀ s : Nat, lcgNext s = (s * 1664525 + 1013904223) % 2 ^ 32)
    ∧ (∀ seed : String, seed.length ≠ 0 → ∀ prior : Nat,
        (seedRandomValue prior seed).1 = (hashString seed).natAbs) := by
  refine ⟨fun size d s p1 p2 => generate_prior_independent size d s p1 p2,
    ?_, ?_⟩
  · intro s
    norm_num [lcgNext]
  · intro seed h prior
    unfold seedRandomValue
    rw [if_neg h]

/-- Witness for C1: the non-empty seed `"TEST1234"` seeds the generator with
the absolute value of its hash. -/
theorem C1_generation_deterministic_witness :
    (seedRandomValue 0 "TEST1234").1 = (hashString "TEST1234").natAbs :=
  C1_generation_deterministic.2.2 "TEST1234" (by decide) 0

set_option maxRecDepth 100000 in
/-- C8: for `size = 4`, seed `"TEST1234"`, difficulty `"medium"`:
`prefilledCount = floor(0.25·16) = 4` and exactly 4 cells are immutable;
`constraintCount = floor(0.7·4) = 2` and exactly 2 constraints are in the
store (concretely, a vertical `notequal` at `(1,2)-(2,2)` inserted first and
a horizontal `equal` at `(0,1)-(0,2)`); re-running generation reproduces the
identical grid system regardless of prior generator state. -/
theorem C8_test_scenario :
    prefilledCount 4 "medium" = 4
    ∧ constraintCount 4 = 2
    ∧ ((generate 4 "medium" "TEST1234" 0).map fun res =>
        (countImmutable res.1, res.1.constraints.length)) = some (4, 2)
    ∧ ((generate 4 "medium" "TEST1234" 0).map fun res =>
        res.1.constraints) = some
        [((1, 2, 2, 2), ⟨⟨1, 2⟩, ⟨2, 2⟩, .notequal⟩),
         ((0, 1, 0, 2), ⟨⟨0, 1⟩, ⟨0, 2⟩, .equal⟩)]
    ∧ (∀ p : Nat, generate 4 "medium" "TEST1234" p
        = generate 4 "medium" "TEST1234" 0) :=
  ⟨by decide, by decide, by decide, by decide,
   fun p => generate_prior_independent 4 "medium" "TEST1234" p 0⟩

end Tango
